import Mathlib

/-!
Verification of the ice-tcp signaling example (Go, pion/webrtc v3).

The development shallowly embeds the candidate-statistics snapshot,
candidate lookup, pair-priority scoring, pair-report building and the
signaling handler of the source file, and settles the frozen claims
about them.

Machine-arithmetic conventions: Go int32 fields that are only ever
inhabited by non-negative values in the claims and in practice
(candidate priorities, ports, enum tags) are modelled as Nat; the
float64 arithmetic of getPriority is modelled exactly, by round-to-
nearest-even at 53 bits of precision on the integer values that arise
(every intermediate value of the source computation is a non-negative
integer below 2 to the 64).
-/

namespace IceTcp

/-- Model of the fields of webrtc.ICECandidateStats that the source
reads or stores: ID, NetworkType (an integer enum in pion), Protocol,
CandidateType, IP, Port, Priority and RelayProtocol.  Priority and
Port are int32 in the source; they are modelled on their non-negative
range (the Go conversion uint64(float64) that consumes Priority is
implementation-defined for negative operands, and no claim mentions
negative values). -/
structure ICECandidateStats where
  ID : String
  NetworkType : Nat
  Protocol : String
  CandidateType : String
  IP : String
  Port : Nat
  Priority : Nat
  RelayProtocol : String
deriving DecidableEq, Repr

/-- Zero value of webrtc.ICECandidateStats, as produced by the Go
composite literal with no fields set: every field empty or zero. -/
def zeroICECandidateStats : ICECandidateStats :=
  { ID := "", NetworkType := 0, Protocol := "", CandidateType := "",
    IP := "", Port := 0, Priority := 0, RelayProtocol := "" }

/-- Model of the source's candidatePair struct. -/
structure candidatePair where
  localID : String
  remoteID : String
deriving DecidableEq, Repr

/-- Model of the fields of webrtc.ICECandidatePairStats that the
source reads: Nominated, LocalCandidateID, RemoteCandidateID. -/
structure ICECandidatePairStats where
  Nominated : Bool
  LocalCandidateID : String
  RemoteCandidateID : String
deriving DecidableEq, Repr

/-- One element of the heterogeneous statistics collection returned by
PeerConnection.GetStats.  The source's type switch distinguishes
ICECandidatePairStats and ICECandidateStats; every other record kind
falls through the switch, modelled by the otherStats constructor. -/
inductive Stats where
  | candidatePairStats (s : ICECandidatePairStats)
  | candidateStats (s : ICECandidateStats)
  | otherStats
deriving DecidableEq, Repr

/-- Model of the source's setCandidateStats struct. -/
structure setCandidateStats where
  candidates : List ICECandidateStats
  nominatedCandidatePairs : List candidatePair
deriving DecidableEq, Repr

/-- Body of the loop in newSetCandidateStats for one statistics
record: the type switch of the source, appending an ICECandidateStats
record to candidates and an ICECandidatePairStats record whose
Nominated flag is set to nominatedCandidatePairs. -/
def statsStep (acc : setCandidateStats) (v : Stats) : setCandidateStats :=
  match v with
  | Stats.candidatePairStats t =>
      if t.Nominated then
        { acc with nominatedCandidatePairs :=
            acc.nominatedCandidatePairs ++
              [{ localID := t.LocalCandidateID, remoteID := t.RemoteCandidateID }] }
      else acc
  | Stats.candidateStats t =>
      { acc with candidates := acc.candidates ++ [t] }
  | Stats.otherStats => acc

/-- Model of newSetCandidateStats.  The Go function ranges over the
statistics collection (a map; the model takes the enumeration sequence
as a list) applying the type switch to each record, starting from
empty slices. -/
def newSetCandidateStats (stats : List Stats) : setCandidateStats :=
  stats.foldl statsStep { candidates := [], nominatedCandidatePairs := [] }

/-- Loop of getCandidateStats: linear search over the candidate list,
returning the first record whose ID matches, and the zero value of
ICECandidateStats when none does. -/
def findCandidate : List ICECandidateStats → String → ICECandidateStats
  | [], _ => zeroICECandidateStats
  | c :: rest, cid => if c.ID = cid then c else findCandidate rest cid

/-- Model of the getCandidateStats method on setCandidateStats. -/
def getCandidateStats (scs : setCandidateStats) (cid : String) : ICECandidateStats :=
  findCandidate scs.candidates cid

/-! Exact model of the float64 arithmetic in getPriority.

The Go source computes
  uint64((1 shl 32 - 1) * math.Min(float64(rp), float64(lp))
         + 2 * math.Max(float64(rp), float64(lp))).
For non-negative int32 inputs every value is a non-negative integer:
the conversions and min/max are exact, the product performs one IEEE
754 round-to-nearest-even at 53 bits of precision, the term
2 * max is exact (below 2 to the 32), and the addition performs one
more such rounding; the final uint64 conversion is exact because the
rounded sum is an integer below 2 to the 64.  The model therefore
computes with natural numbers and a rounding function rnd that rounds
a natural number below 2 to the 64 to the nearest float64 value. -/

/-- Bit length of a natural number, with explicit fuel so that the
recursion is structural; fuel 64 is exact for every input below
2 to the 64. -/
def blAux : Nat → Nat → Nat
  | 0, _ => 0
  | fuel + 1, n => if n = 0 then 0 else blAux fuel (n / 2) + 1

/-- Bit length of a natural number below 2 to the 64. -/
def bl (n : Nat) : Nat := blAux 64 n

/-- Round n to the nearest multiple of d, ties to the even multiple
(the IEEE 754 round-to-nearest-even rule at granularity d). -/
def rhe (d n : Nat) : Nat :=
  if 2 * (n % d) < d then d * (n / d)
  else if d < 2 * (n % d) then d * (n / d + 1)
  else if (n / d) % 2 = 0 then d * (n / d) else d * (n / d + 1)

/-- Round a natural number below 2 to the 64 to the nearest float64
value: numbers below 2 to the 53 are exactly representable; a number
of bit length 53 + e is rounded to the nearest multiple of 2 to the e,
ties to even. -/
def rnd (n : Nat) : Nat :=
  if n < 2 ^ 53 then n else rhe (2 ^ (bl n - 53)) n

/-- Model of the getPriority method of setCandidateStats, exact over
the non-negative int32 inputs lp and rp (the source's parameter type
is int32; the receiver is unused).  Mirrors the source's float64
computation: one rounding after the product with 4294967295
(the Go constant 1 shl 32 - 1) and one rounding after the addition. -/
def getPriority (lp rp : Nat) : Nat :=
  rnd (rnd (4294967295 * min rp lp) + 2 * max rp lp)

/-- The element the source appends to its result slice for one
nominated pair: the computed priority followed by the six attribute
fields of the resolved local candidate and of the resolved remote
candidate, modelled as a record. -/
structure PairReport where
  priority : Nat
  localNetworkType : Nat
  localProtocol : String
  localCandidateType : String
  localIP : String
  localPort : Nat
  localRelayProtocol : String
  remoteNetworkType : Nat
  remoteProtocol : String
  remoteCandidateType : String
  remoteIP : String
  remotePort : Nat
  remoteRelayProtocol : String
deriving DecidableEq, Repr

/-- Body of the loop in getSetCandidates for one nominated pair:
resolve the local and the remote candidate, score them, and build the
report element. -/
def pairReportOf (scs : setCandidateStats) (ncp : candidatePair) : PairReport :=
  let localCandidate := getCandidateStats scs ncp.localID
  let remoteCandidate := getCandidateStats scs ncp.remoteID
  { priority := getPriority localCandidate.Priority remoteCandidate.Priority,
    localNetworkType := localCandidate.NetworkType,
    localProtocol := localCandidate.Protocol,
    localCandidateType := localCandidate.CandidateType,
    localIP := localCandidate.IP,
    localPort := localCandidate.Port,
    localRelayProtocol := localCandidate.RelayProtocol,
    remoteNetworkType := remoteCandidate.NetworkType,
    remoteProtocol := remoteCandidate.Protocol,
    remoteCandidateType := remoteCandidate.CandidateType,
    remoteIP := remoteCandidate.IP,
    remotePort := remoteCandidate.Port,
    remoteRelayProtocol := remoteCandidate.RelayProtocol }

/-- Model of getSetCandidates.  The source allocates the result with
make and a length equal to the number of nominated pairs — leaving
that many zero-valued interface elements, modelled as none — and then
appends one report per nominated pair; entries produced by append are
modelled as some of the report record. -/
def getSetCandidates (scs : setCandidateStats) : List (Option PairReport) :=
  scs.nominatedCandidatePairs.foldl
    (fun setCandidates ncp => setCandidates ++ [some (pairReportOf scs ncp)])
    (List.replicate scs.nominatedCandidatePairs.length none)

/-- Concrete snapshot of the spec's worked scenario: candidates L1
with priority 100 and R1 with priority 200, one nominated pair
(L1, R1). -/
def exampleSnap : setCandidateStats :=
  { candidates :=
      [{ zeroICECandidateStats with ID := "L1", Priority := 100 },
       { zeroICECandidateStats with ID := "R1", Priority := 200 }],
    nominatedCandidatePairs := [{ localID := "L1", remoteID := "R1" }] }

/-- Concrete snapshot whose candidate collection holds two records
sharing the identifier C, distinguished by their ports. -/
def dupFirst : ICECandidateStats :=
  { zeroICECandidateStats with ID := "C", Port := 1, Priority := 10 }

/-- Second record with the duplicated identifier C. -/
def dupSecond : ICECandidateStats :=
  { zeroICECandidateStats with ID := "C", Port := 2, Priority := 20 }

/-- Snapshot containing the two duplicated records. -/
def dupSnap : setCandidateStats :=
  { candidates := [dupFirst, dupSecond], nominatedCandidatePairs := [] }

/-! Model of the doSignaling HTTP handler.

The handler is straight-line Go code whose only control flow is
panicking on an error and blocking on the gather-complete channel.
It is embedded as a function from an oracle — the success or failure
of each fallible external call, and whether gathering ever completes —
to the sequence of events the handler performs, in program order.
A failing call contributes a panicked event and ends the trace (the
panic aborts the request's flow); a gather channel that never fires
parks the flow, ending the trace after the events already performed. -/

/-- Events of one execution of the doSignaling handler, in the order
the source can perform them. -/
inductive SigEvent where
  | newPeerConnection
  | registerCallbacks
  | decodeOffer
  | setRemoteDescription
  | createGatherPromise
  | createAnswer
  | setLocalDescription
  | gatherComplete
  | marshalLocalDescription
  | setContentTypeHeader
  | writeResponse
  | panicked
deriving DecidableEq, Repr

/-- Oracle for one doSignaling execution: the outcome of each fallible
external call, in source order, and whether the gather-complete
notification ever fires. -/
structure SigOracle where
  newPCOk : Bool
  decodeOk : Bool
  setRemoteOk : Bool
  createAnswerOk : Bool
  setLocalOk : Bool
  gatherFires : Bool
  marshalOk : Bool
  writeOk : Bool
deriving DecidableEq, Repr

/-- Trace of one doSignaling execution under the given oracle,
mirroring the source line by line: create the peer connection,
register the two callbacks, decode the offer, set the remote
description, create the gather-complete promise, create the answer,
set the local description, block on the promise, marshal the local
description, set the Content-Type header, write the response; any
error panics at that point, and the write precedes the check of its
error. -/
def doSignaling (o : SigOracle) : List SigEvent :=
  if !o.newPCOk then [SigEvent.panicked] else
  SigEvent.newPeerConnection :: SigEvent.registerCallbacks ::
  (if !o.decodeOk then [SigEvent.panicked] else
   SigEvent.decodeOffer ::
   (if !o.setRemoteOk then [SigEvent.panicked] else
    SigEvent.setRemoteDescription :: SigEvent.createGatherPromise ::
    (if !o.createAnswerOk then [SigEvent.panicked] else
     SigEvent.createAnswer ::
     (if !o.setLocalOk then [SigEvent.panicked] else
      SigEvent.setLocalDescription ::
      (if !o.gatherFires then [] else
       SigEvent.gatherComplete ::
       (if !o.marshalOk then [SigEvent.panicked] else
        SigEvent.marshalLocalDescription :: SigEvent.setContentTypeHeader ::
        SigEvent.writeResponse ::
        (if !o.writeOk then [SigEvent.panicked] else [])))))))

/-- Oracle under which every external call succeeds and gathering
completes. -/
def allOkOracle : SigOracle :=
  { newPCOk := true, decodeOk := true, setRemoteOk := true,
    createAnswerOk := true, setLocalOk := true, gatherFires := true,
    marshalOk := true, writeOk := true }

/-- Oracle of the invalid-offer scenario: peer-connection creation
succeeds, the JSON decode of the request body fails, everything later
is unreachable. -/
def badDecodeOracle : SigOracle :=
  { newPCOk := true, decodeOk := false, setRemoteOk := true,
    createAnswerOk := true, setLocalOk := true, gatherFires := true,
    marshalOk := true, writeOk := true }

/-! Lemmas about the bit-length function. -/

lemma blAux_zero (fuel : Nat) : blAux fuel 0 = 0 := by
  cases fuel <;> simp [blAux]

lemma blAux_spec (fuel : Nat) : ∀ n : Nat, n < 2 ^ fuel →
    n < 2 ^ blAux fuel n ∧ (n ≠ 0 → 2 ^ (blAux fuel n - 1) ≤ n ∧ blAux fuel n ≠ 0) := by
  induction fuel with
  | zero =>
      intro n hn
      have hn0 : n = 0 := by simpa using Nat.lt_one_iff.mp (by simpa using hn)
      subst hn0
      refine ⟨by simp [blAux], fun h => absurd rfl h⟩
  | succ fuel ih =>
      intro n hn
      by_cases h0 : n = 0
      · subst h0
        exact ⟨by simp [blAux], fun h => absurd rfl h⟩
      · have hstep : blAux (fuel + 1) n = blAux fuel (n / 2) + 1 := by
          simp [blAux, h0]
        have hdiv : n / 2 < 2 ^ fuel := by
          have h2 : n < 2 ^ fuel * 2 := by
            have : (2 : Nat) ^ (fuel + 1) = 2 ^ fuel * 2 := pow_succ 2 fuel
            omega
          exact Nat.div_lt_iff_lt_mul (by norm_num) |>.mpr h2
        obtain ⟨ih1, ih2⟩ := ih (n / 2) hdiv
        have hdm := Nat.div_add_mod n 2
        have hml : n % 2 < 2 := Nat.mod_lt n (by norm_num)
        constructor
        · rw [hstep]
          have hp : (2 : Nat) ^ (blAux fuel (n / 2) + 1) = 2 ^ blAux fuel (n / 2) * 2 :=
            pow_succ 2 (blAux fuel (n / 2))
          omega
        · intro _
          rw [hstep]
          refine ⟨?_, by omega⟩
          simp only [Nat.add_sub_cancel]
          by_cases hh : n / 2 = 0
          · have hn1 : n = 1 := by omega
            simp [hn1, blAux_zero]
          · obtain ⟨ihlow, ihne⟩ := ih2 hh
            have hp := pow_succ 2 (blAux fuel (n / 2) - 1)
            have hs : blAux fuel (n / 2) - 1 + 1 = blAux fuel (n / 2) := by omega
            rw [hs] at hp
            omega

lemma bl_lt {n : Nat} (h : n < 2 ^ 64) : n < 2 ^ bl n :=
  (blAux_spec 64 n h).1

lemma bl_le {n : Nat} (h : n < 2 ^ 64) (hn : n ≠ 0) : 2 ^ (bl n - 1) ≤ n :=
  ((blAux_spec 64 n h).2 hn).1

lemma bl_mono {n m : Nat} (hnm : n ≤ m) (hm : m < 2 ^ 64) : bl n ≤ bl m := by
  by_cases h0 : n = 0
  · subst h0
    simp [bl, blAux_zero]
  · by_contra hlt
    push_neg at hlt
    have h1 : 2 ^ (bl n - 1) ≤ n := bl_le (lt_of_le_of_lt hnm hm) h0
    have h2 : m < 2 ^ bl m := bl_lt hm
    have h3 : (2 : Nat) ^ bl m ≤ 2 ^ (bl n - 1) :=
      Nat.pow_le_pow_right (by norm_num) (by omega)
    omega

lemma bl_ge_of_le {k n : Nat} (hk : 2 ^ k ≤ n) (h64 : n < 2 ^ 64) : k + 1 ≤ bl n := by
  have h1 : n < 2 ^ bl n := bl_lt h64
  have h2 : (2 : Nat) ^ k < 2 ^ bl n := lt_of_le_of_lt hk h1
  exact Nat.pow_lt_pow_iff_right (by norm_num) |>.mp h2

lemma bl_le_of_lt {k n : Nat} (hk : n < 2 ^ k) (h64 : n < 2 ^ 64) (hn : n ≠ 0) :
    bl n ≤ k := by
  have h1 : 2 ^ (bl n - 1) ≤ n := bl_le h64 hn
  have h2 : (2 : Nat) ^ (bl n - 1) < 2 ^ k := lt_of_le_of_lt h1 hk
  have h3 : bl n - 1 < k := Nat.pow_lt_pow_iff_right (by norm_num) |>.mp h2
  have h4 : bl n ≠ 0 := ((blAux_spec 64 n h64).2 hn).2
  omega

/-! Lemmas about round-to-nearest-even at a fixed granularity. -/

lemma rhe_ge (d n : Nat) : d * (n / d) ≤ rhe d n := by
  unfold rhe
  split_ifs <;> first
    | exact Nat.le_refl _
    | exact Nat.mul_le_mul_left d (Nat.le_succ _)

lemma rhe_le (d n : Nat) : rhe d n ≤ d * (n / d + 1) := by
  unfold rhe
  split_ifs <;> first
    | exact Nat.le_refl _
    | exact Nat.mul_le_mul_left d (Nat.le_succ _)

lemma rhe_mono (d : Nat) {n m : Nat} (h : n ≤ m) : rhe d n ≤ rhe d m := by
  have hq : n / d ≤ m / d := Nat.div_le_div_right h
  rcases Nat.lt_or_ge (n / d) (m / d) with hlt | hge
  · calc rhe d n ≤ d * (n / d + 1) := rhe_le d n
      _ ≤ d * (m / d) := Nat.mul_le_mul_left d (by omega)
      _ ≤ rhe d m := rhe_ge d m
  · have heq : n / d = m / d := le_antisymm hq hge
    have hrn : d * (n / d) + n % d = n := Nat.div_add_mod n d
    have hrm : d * (m / d) + m % d = m := Nat.div_add_mod m d
    rw [heq] at hrn
    have hr : n % d ≤ m % d := by omega
    have hAB : d * (m / d) ≤ d * (m / d + 1) := Nat.mul_le_mul_left d (Nat.le_succ _)
    unfold rhe
    rw [heq]
    split_ifs <;> omega

/-! Lemmas about rounding to the nearest float64 value. -/

lemma rnd_small {n : Nat} (h : n < 2 ^ 53) : rnd n = n := by
  unfold rnd
  rw [if_pos h]

lemma rnd_eq_rhe {n : Nat} (h53 : 2 ^ 53 ≤ n) : rnd n = rhe (2 ^ (bl n - 53)) n := by
  unfold rnd
  rw [if_neg (not_lt.mpr h53)]

lemma rnd_lower {n : Nat} (h53 : 2 ^ 53 ≤ n) (h64 : n < 2 ^ 64) :
    2 ^ (bl n - 1) ≤ rnd n := by
  have hn0 : n ≠ 0 := by
    rintro rfl
    exact absurd h53 (by norm_num)
  have hbl : 54 ≤ bl n := bl_ge_of_le h53 h64
  have hdpos : 0 < 2 ^ (bl n - 53) := Nat.pos_pow_of_pos _ (by norm_num)
  have hkey : (2 : Nat) ^ 52 * 2 ^ (bl n - 53) = 2 ^ (bl n - 1) := by
    rw [← pow_add]
    congr 1
    omega
  have hdiv : 2 ^ 52 ≤ n / 2 ^ (bl n - 53) := by
    rw [Nat.le_div_iff_mul_le hdpos, hkey]
    exact bl_le h64 hn0
  calc 2 ^ (bl n - 1) = 2 ^ (bl n - 53) * 2 ^ 52 := by rw [mul_comm, hkey]
    _ ≤ 2 ^ (bl n - 53) * (n / 2 ^ (bl n - 53)) := Nat.mul_le_mul_left _ hdiv
    _ ≤ rhe (2 ^ (bl n - 53)) n := rhe_ge _ n
    _ = rnd n := (rnd_eq_rhe h53).symm

lemma rnd_upper {n : Nat} (h53 : 2 ^ 53 ≤ n) (h64 : n < 2 ^ 64) :
    rnd n ≤ 2 ^ bl n := by
  have hdpos : 0 < 2 ^ (bl n - 53) := Nat.pos_pow_of_pos _ (by norm_num)
  have hbl : 54 ≤ bl n := bl_ge_of_le h53 h64
  have hkey : (2 : Nat) ^ 53 * 2 ^ (bl n - 53) = 2 ^ bl n := by
    rw [← pow_add]
    congr 1
    omega
  have hdiv : n / 2 ^ (bl n - 53) < 2 ^ 53 := by
    rw [Nat.div_lt_iff_lt_mul hdpos, hkey]
    exact bl_lt h64
  calc rnd n = rhe (2 ^ (bl n - 53)) n := rnd_eq_rhe h53
    _ ≤ 2 ^ (bl n - 53) * (n / 2 ^ (bl n - 53) + 1) := rhe_le _ n
    _ ≤ 2 ^ (bl n - 53) * 2 ^ 53 := Nat.mul_le_mul_left _ (by omega)
    _ = 2 ^ bl n := by rw [mul_comm, hkey]

lemma rnd_mono {n m : Nat} (h : n ≤ m) (h64 : m < 2 ^ 64) : rnd n ≤ rnd m := by
  by_cases hm : m < 2 ^ 53
  · rw [rnd_small (lt_of_le_of_lt h hm), rnd_small hm]
    exact h
  · push_neg at hm
    by_cases hn : n < 2 ^ 53
    · have h1 : 54 ≤ bl m := bl_ge_of_le hm h64
      have h2 : (2 : Nat) ^ 53 ≤ 2 ^ (bl m - 1) :=
        Nat.pow_le_pow_right (by norm_num) (by omega)
      have h3 := rnd_lower hm h64
      rw [rnd_small hn]
      omega
    · push_neg at hn
      have hn64 : n < 2 ^ 64 := lt_of_le_of_lt h h64
      have hble : bl n ≤ bl m := bl_mono h h64
      rcases eq_or_lt_of_le hble with heq | hlt
      · rw [rnd_eq_rhe hn, rnd_eq_rhe hm, heq]
        exact rhe_mono _ h
      · have h1 : rnd n ≤ 2 ^ bl n := rnd_upper hn hn64
        have h2 : (2 : Nat) ^ bl n ≤ 2 ^ (bl m - 1) :=
          Nat.pow_le_pow_right (by norm_num) (by omega)
        have h3 := rnd_lower hm h64
        omega

lemma rnd_le_pow63 {n : Nat} (h : n < 2 ^ 63) : rnd n ≤ 2 ^ 63 := by
  by_cases hn : n < 2 ^ 53
  · rw [rnd_small hn]
    norm_num at *
    omega
  · push_neg at hn
    have hn0 : n ≠ 0 := by
      rintro rfl
      exact absurd hn (by norm_num)
    have h64 : n < 2 ^ 64 := lt_trans h (by norm_num)
    have hbl : bl n ≤ 63 := bl_le_of_lt h h64 hn0
    calc rnd n ≤ 2 ^ bl n := rnd_upper hn h64
      _ ≤ 2 ^ 63 := Nat.pow_le_pow_right (by norm_num) hbl

/-! List-level helper lemmas. -/

lemma foldl_append_map {α β : Type} (g : α → β) (l : List α) (acc : List β) :
    l.foldl (fun a x => a ++ [g x]) acc = acc ++ l.map g := by
  induction l generalizing acc with
  | nil => simp
  | cons x xs ih => simp [List.foldl, ih]

lemma findCandidate_miss (l : List ICECandidateStats) (cid : String)
    (h : ∀ c ∈ l, c.ID ≠ cid) : findCandidate l cid = zeroICECandidateStats := by
  induction l with
  | nil => rfl
  | cons c rest ih =>
      have hc : c.ID ≠ cid := h c (List.mem_cons_self c rest)
      rw [findCandidate, if_neg hc]
      exact ih fun c' hc' => h c' (List.mem_cons_of_mem c hc')

lemma findCandidate_first (l1 : List ICECandidateStats) (c : ICECandidateStats)
    (l2 : List ICECandidateStats) (cid : String) (hc : c.ID = cid)
    (h : ∀ c' ∈ l1, c'.ID ≠ cid) : findCandidate (l1 ++ c :: l2) cid = c := by
  induction l1 with
  | nil => rw [List.nil_append, findCandidate, if_pos hc]
  | cons d rest ih =>
      have hd : d.ID ≠ cid := h d (List.mem_cons_self d rest)
      rw [List.cons_append, findCandidate, if_neg hd]
      exact ih fun c' hc' => h c' (List.mem_cons_of_mem d hc')

/-- Projection of a statistics record to the candidate it contributes
to the snapshot's candidate collection, when it is one. -/
def candOf : Stats → Option ICECandidateStats
  | Stats.candidateStats c => some c
  | _ => none

/-- Projection of a statistics record to the nominated pair it
contributes to the snapshot's nominated-pair collection, when it is a
pair record with the Nominated flag set. -/
def nomPairOf : Stats → Option candidatePair
  | Stats.candidatePairStats p =>
      if p.Nominated then
        some { localID := p.LocalCandidateID, remoteID := p.RemoteCandidateID }
      else none
  | _ => none

lemma foldl_statsStep_spec (l : List Stats) (acc : setCandidateStats) :
    (l.foldl statsStep acc).candidates = acc.candidates ++ l.filterMap candOf ∧
    (l.foldl statsStep acc).nominatedCandidatePairs =
      acc.nominatedCandidatePairs ++ l.filterMap nomPairOf := by
  induction l generalizing acc with
  | nil => simp
  | cons v vs ih =>
      obtain ⟨ih1, ih2⟩ := ih (statsStep acc v)
      rw [List.foldl_cons]
      cases v with
      | candidatePairStats p =>
          by_cases hp : p.Nominated
          · constructor
            · rw [ih1]
              simp [statsStep, candOf, hp, List.filterMap_cons]
            · rw [ih2]
              simp [statsStep, nomPairOf, hp, List.filterMap_cons]
          · constructor
            · rw [ih1]
              simp [statsStep, candOf, hp, List.filterMap_cons]
            · rw [ih2]
              simp [statsStep, nomPairOf, hp, List.filterMap_cons]
      | candidateStats c =>
          constructor
          · rw [ih1]
            simp [statsStep, candOf, List.filterMap_cons]
          · rw [ih2]
            simp [statsStep, nomPairOf, List.filterMap_cons]
      | otherStats =>
          constructor
          · rw [ih1]
            simp [statsStep, candOf, List.filterMap_cons]
          · rw [ih2]
            simp [statsStep, nomPairOf, List.filterMap_cons]

/-! Claim theorems. -/

/-- Claim C1.  The claim states that on a snapshot with N nominated
pairs, getSetCandidates returns exactly N reports.  The code slips:
it allocates its result slice with make and length N and then appends
the N reports, so the returned slice holds 2 * N elements — N
zero-valued placeholders followed by the N reports, one per nominated
pair.  This theorem evaluates the code's actual behaviour, exhibiting
the divergence. -/
theorem getSetCandidates_double_length :
    ∀ scs : setCandidateStats,
      getSetCandidates scs =
        List.replicate scs.nominatedCandidatePairs.length none ++
          scs.nominatedCandidatePairs.map (fun ncp => some (pairReportOf scs ncp)) ∧
      (getSetCandidates scs).length = 2 * scs.nominatedCandidatePairs.length := by
  intro scs
  have he : getSetCandidates scs =
      List.replicate scs.nominatedCandidatePairs.length none ++
        scs.nominatedCandidatePairs.map (fun ncp => some (pairReportOf scs ncp)) := by
    unfold getSetCandidates
    exact foldl_append_map _ _ _
  refine ⟨he, ?_⟩
  rw [he]
  simp [List.length_append, List.length_replicate, List.length_map]
  omega

/-- Claim C2.  The claim states that the priority scorer returns
exactly (2 pow 32 - 1) * min + 2 * max for every pair of uint32
inputs.  The code's parameters are int32 and the computation goes
through float64, whose 53-bit mantissa rounds large products: at the
largest int32 input 2147483647 for both arguments the code returns
9223372034707292160 while the exact formula gives 9223372034707292159.
This theorem evaluates the code at that failing input. -/
theorem getPriority_float_rounding_deviation :
    getPriority 2147483647 2147483647 = 9223372034707292160 ∧
    getPriority 2147483647 2147483647 ≠
      4294967295 * 2147483647 + 2 * 2147483647 := by
  constructor
  · decide
  · decide

/-- Claim C3, counterexample.  The claim states that on the worked
example snapshot buildReports yields exactly one PairReport with
priority 429496730300.  The code returns a two-element slice, and the
single real report it contains has priority 429496729900. -/
theorem getSetCandidates_example_claim_false :
    (getSetCandidates exampleSnap).length ≠ 1 ∧
    ¬ ∃ p : PairReport,
        some p ∈ getSetCandidates exampleSnap ∧ p.priority = 429496730300 := by
  constructor
  · intro h1
    have h2 : (getSetCandidates exampleSnap).length = 2 := by decide
    omega
  · rintro ⟨p, hmem, hpr⟩
    have hev : getSetCandidates exampleSnap =
        [none, some (pairReportOf exampleSnap { localID := "L1", remoteID := "R1" })] := by
      decide
    rw [hev] at hmem
    simp at hmem
    subst hmem
    have hp : (pairReportOf exampleSnap
        { localID := "L1", remoteID := "R1" }).priority = 429496729900 := by decide
    omega

/-- Claim C3, amended.  On the worked example snapshot the code
returns a two-element slice — the zero-valued placeholder left by the
length-initialized allocation, then the single report — and the
report's computed priority is 429496729900, which is the value of
(2 pow 32 - 1) * 100 + 2 * 200. -/
theorem getSetCandidates_example_eval :
    getSetCandidates exampleSnap =
      [none, some (pairReportOf exampleSnap { localID := "L1", remoteID := "R1" })] ∧
    (pairReportOf exampleSnap { localID := "L1", remoteID := "R1" }).priority =
      429496729900 ∧
    429496729900 = 4294967295 * 100 + 2 * 200 := by
  refine ⟨by decide, by decide, by norm_num⟩

/-- Claim C4.  Swapping the two arguments of the priority scorer never
changes the result: the float64 computation depends on its inputs only
through their minimum and maximum. -/
theorem getPriority_comm : ∀ a b : Nat, getPriority a b = getPriority b a := by
  intro a b
  unfold getPriority
  rw [Nat.min_comm b a, Nat.max_comm b a]

/-- Claim C5, counterexample.  The claim quantifies over all uint32
inputs, but the scorer cannot deliver a uint64 result over that
domain: its parameters are int32, so the inputs in the upper half of
the claimed range cannot even be passed, and at the claimed extreme
pair (4294967295, 4294967295) the float64 value of the source
expression — computed exactly by getPriority, which models the
expression before the final uint64 conversion — is 2 pow 64, which
exceeds every uint64, so Go leaves the converted result
implementation-defined (on amd64 it is 0, below the exact
12884901885 produced at the comparison pair (1, 4294967295), whose
minimum is smaller and whose maximum is equal).  The claimed
inequality therefore fails to hold as stated at these concrete
inputs. -/
theorem getPriority_uint32_claim_false :
    min 1 4294967295 ≤ min 4294967295 (4294967295 : Nat) ∧
    max 1 4294967295 = max 4294967295 (4294967295 : Nat) ∧
    getPriority 1 4294967295 = 12884901885 ∧
    getPriority 4294967295 4294967295 = 2 ^ 64 ∧
    ¬ getPriority 4294967295 4294967295 < 2 ^ 64 := by
  refine ⟨by decide, by decide, by decide, by decide, by decide⟩

/-- Claim C5, amended.  Over the scorer's actual input domain — the
non-negative int32 range, below 2 pow 31 — the priority scorer is
monotonically non-decreasing in the minimum of its two arguments with
the maximum fixed, and in the maximum with the minimum fixed: IEEE 754
rounding to nearest is a monotone map, so the two roundings preserve
the monotonicity of the exact formula, and every value stays below
2 pow 64 so the uint64 conversion is exact. -/
theorem getPriority_min_max_monotone :
    ∀ a b a2 b2 : Nat, a < 2 ^ 31 → b < 2 ^ 31 → a2 < 2 ^ 31 → b2 < 2 ^ 31 →
      ((min a b ≤ min a2 b2 ∧ max a b = max a2 b2) ∨
       (min a b = min a2 b2 ∧ max a b ≤ max a2 b2)) →
      getPriority a b ≤ getPriority a2 b2 := by
  intro a b a2 b2 ha hb ha2 hb2 hcase
  have e1 : getPriority a b = rnd (rnd (4294967295 * min a b) + 2 * max a b) := by
    unfold getPriority
    rw [Nat.min_comm b a, Nat.max_comm b a]
  have e2 : getPriority a2 b2 = rnd (rnd (4294967295 * min a2 b2) + 2 * max a2 b2) := by
    unfold getPriority
    rw [Nat.min_comm b2 a2, Nat.max_comm b2 a2]
  rw [e1, e2]
  have hmin1 : min a b < 2 ^ 31 := lt_of_le_of_lt (min_le_left a b) ha
  have hmin2 : min a2 b2 < 2 ^ 31 := lt_of_le_of_lt (min_le_left a2 b2) ha2
  have hmax1 : max a b < 2 ^ 31 := max_lt ha hb
  have hmax2 : max a2 b2 < 2 ^ 31 := max_lt ha2 hb2
  have hx1 : 4294967295 * min a b < 2 ^ 63 := by
    calc 4294967295 * min a b ≤ 4294967295 * (2 ^ 31 - 1) :=
          Nat.mul_le_mul_left _ (by omega)
      _ < 2 ^ 63 := by norm_num
  have hx2 : 4294967295 * min a2 b2 < 2 ^ 63 := by
    calc 4294967295 * min a2 b2 ≤ 4294967295 * (2 ^ 31 - 1) :=
          Nat.mul_le_mul_left _ (by omega)
      _ < 2 ^ 63 := by norm_num
  have hr1 : rnd (4294967295 * min a b) ≤ 2 ^ 63 := rnd_le_pow63 hx1
  have hr2 : rnd (4294967295 * min a2 b2) ≤ 2 ^ 63 := rnd_le_pow63 hx2
  have houter : rnd (4294967295 * min a2 b2) + 2 * max a2 b2 < 2 ^ 64 := by
    have h1 : (2 : Nat) ^ 63 + 2 ^ 32 < 2 ^ 64 := by norm_num
    have h2 : 2 * max a2 b2 < 2 ^ 32 := by
      have : (2 : Nat) ^ 32 = 2 * 2 ^ 31 := by norm_num
      omega
    omega
  have hinner : rnd (4294967295 * min a b) ≤ rnd (4294967295 * min a2 b2) := by
    rcases hcase with ⟨hmin, _⟩ | ⟨hmin, _⟩
    · exact rnd_mono (Nat.mul_le_mul_left _ hmin) (lt_trans hx2 (by norm_num))
    · rw [hmin]
  have hsum : rnd (4294967295 * min a b) + 2 * max a b ≤
      rnd (4294967295 * min a2 b2) + 2 * max a2 b2 := by
    rcases hcase with ⟨_, hmax⟩ | ⟨_, hmax⟩
    · rw [hmax]
      omega
    · omega
  exact rnd_mono hsum houter

/-- Claim C5, witness: concrete instance at the pairs (3, 7) and
(5, 7), where the minimum grows and the maximum is fixed. -/
theorem getPriority_min_max_monotone_witness :
    (3 : Nat) < 2 ^ 31 ∧ (7 : Nat) < 2 ^ 31 ∧ (5 : Nat) < 2 ^ 31 ∧
    ((min 3 7 ≤ min 5 7 ∧ max 3 7 = max (5 : Nat) 7) ∨
     (min 3 7 = min 5 7 ∧ max 3 7 ≤ max (5 : Nat) 7)) ∧
    getPriority 3 7 ≤ getPriority 5 7 :=
  ⟨by norm_num, by norm_num, by norm_num, by decide,
   getPriority_min_max_monotone 3 7 5 7 (by norm_num) (by norm_num) (by norm_num)
     (by norm_num) (by decide)⟩

/-- Claim C6.  Candidate lookup is total: on a snapshot with an empty
candidate collection, and more generally whenever no candidate record
carries the requested identifier, getCandidateStats returns the zero
value of ICECandidateStats — every field empty or zero — rather than
failing. -/
theorem getCandidateStats_total_miss :
    (∀ cid : String,
        getCandidateStats { candidates := [], nominatedCandidatePairs := [] } cid =
          zeroICECandidateStats) ∧
    (∀ (scs : setCandidateStats) (cid : String),
        (∀ c ∈ scs.candidates, c.ID ≠ cid) →
        getCandidateStats scs cid = zeroICECandidateStats) := by
  constructor
  · intro cid
    rfl
  · intro scs cid h
    exact findCandidate_miss scs.candidates cid h

/-- Claim C6, witness: lookup of an identifier absent from the worked
example snapshot returns the zero-valued record. -/
theorem getCandidateStats_total_miss_witness :
    (∀ c ∈ exampleSnap.candidates, c.ID ≠ "X") ∧
    getCandidateStats exampleSnap "X" = zeroICECandidateStats :=
  ⟨by decide, getCandidateStats_total_miss.2 exampleSnap "X" (by decide)⟩

/-- Claim C7.  newSetCandidateStats partitions any statistics
collection totally: its candidate collection is exactly the
per-candidate records in enumeration order, its nominated-pair
collection is exactly the pair records whose Nominated flag is set, in
enumeration order, with non-nominated pairs and records of other kinds
excluded, and the empty collection yields the empty snapshot. -/
theorem newSetCandidateStats_partition :
    (∀ stats : List Stats,
        (newSetCandidateStats stats).candidates = stats.filterMap candOf ∧
        (newSetCandidateStats stats).nominatedCandidatePairs =
          stats.filterMap nomPairOf) ∧
    newSetCandidateStats [] = { candidates := [], nominatedCandidatePairs := [] } := by
  constructor
  · intro stats
    have h := foldl_statsStep_spec stats
      { candidates := [], nominatedCandidatePairs := [] }
    unfold newSetCandidateStats
    simpa using h
  · rfl

/-- Claim C10.  When the candidate collection contains several records
with the same identifier, getCandidateStats returns the first matching
record in collection order: the search checks records left to right
and stops at the first identifier match, without any uniqueness
check. -/
theorem getCandidateStats_first_match :
    ∀ (scs : setCandidateStats) (cid : String) (l1 : List ICECandidateStats)
      (c : ICECandidateStats) (l2 : List ICECandidateStats),
      scs.candidates = l1 ++ c :: l2 → c.ID = cid →
      (∀ c' ∈ l1, c'.ID ≠ cid) →
      getCandidateStats scs cid = c := by
  intro scs cid l1 c l2 hsplit hc h
  unfold getCandidateStats
  rw [hsplit]
  exact findCandidate_first l1 c l2 cid hc h

/-- Claim C10, witness: on the snapshot holding two records that both
carry the identifier C, lookup returns the first of them. -/
theorem getCandidateStats_first_match_witness :
    dupSnap.candidates = [] ++ dupFirst :: [dupSecond] ∧ dupFirst.ID = "C" ∧
    (∀ c' ∈ ([] : List ICECandidateStats), c'.ID ≠ "C") ∧
    getCandidateStats dupSnap "C" = dupFirst :=
  ⟨rfl, rfl, by simp,
   getCandidateStats_first_match dupSnap "C" [] dupFirst [dupSecond] rfl rfl (by simp)⟩

/-- Claim C8.  In every execution of the signaling handler, the HTTP
response body is written only after the gather-complete barrier has
been satisfied: whenever the trace performs writeResponse, a strictly
earlier position of the same trace performs gatherComplete. -/
theorem doSignaling_write_after_barrier :
    ∀ (o : SigOracle) (j : Fin (doSignaling o).length),
      (doSignaling o).get j = SigEvent.writeResponse →
      ∃ i : Fin (doSignaling o).length,
        (i : Nat) < (j : Nat) ∧ (doSignaling o).get i = SigEvent.gatherComplete := by
  intro o
  obtain ⟨a, b, c, d, e, f, g, h⟩ := o
  cases a <;> cases b <;> cases c <;> cases d <;> cases e <;> cases f <;> cases g <;>
    cases h <;> decide

/-- Claim C8, witness: under the oracle where every call succeeds and
gathering completes, the response write at position 10 of the trace is
preceded by the barrier satisfaction. -/
theorem doSignaling_write_after_barrier_witness :
    ∃ i : Fin (doSignaling allOkOracle).length,
      (i : Nat) < 10 ∧ (doSignaling allOkOracle).get i = SigEvent.gatherComplete :=
  doSignaling_write_after_barrier allOkOracle ⟨10, by decide⟩ (by decide)

/-- Claim C9.  When peer-connection creation succeeds but the request
body fails to decode as a session description, the handler panics
right after decoding, before the remote description is applied: the
trace is creation, callback registration, then the panic, and contains
neither a response write nor the setRemoteDescription step. -/
theorem doSignaling_invalid_offer :
    ∀ o : SigOracle, o.newPCOk = true → o.decodeOk = false →
      doSignaling o =
        [SigEvent.newPeerConnection, SigEvent.registerCallbacks, SigEvent.panicked] ∧
      SigEvent.writeResponse ∉ doSignaling o ∧
      SigEvent.setRemoteDescription ∉ doSignaling o := by
  intro o h1 h2
  obtain ⟨a, b, c, d, e, f, g, h⟩ := o
  cases a
  · exact Bool.noConfusion h1
  · cases b
    · have key : doSignaling
          { newPCOk := true, decodeOk := false, setRemoteOk := c, createAnswerOk := d,
            setLocalOk := e, gatherFires := f, marshalOk := g, writeOk := h } =
          [SigEvent.newPeerConnection, SigEvent.registerCallbacks, SigEvent.panicked] :=
        rfl
      refine ⟨key, ?_, ?_⟩ <;> rw [key] <;> decide
    · exact Bool.noConfusion h2

/-- Claim C9, witness: the invalid-offer oracle satisfies the
hypotheses and yields the three-event failed trace without a response
write. -/
theorem doSignaling_invalid_offer_witness :
    badDecodeOracle.newPCOk = true ∧ badDecodeOracle.decodeOk = false ∧
    (doSignaling badDecodeOracle =
        [SigEvent.newPeerConnection, SigEvent.registerCallbacks, SigEvent.panicked] ∧
      SigEvent.writeResponse ∉ doSignaling badDecodeOracle ∧
      SigEvent.setRemoteDescription ∉ doSignaling badDecodeOracle) :=
  ⟨rfl, rfl, doSignaling_invalid_offer badDecodeOracle rfl rfl⟩

end IceTcp
